import Mathlib

/-!
Verification of the Sgantispy threat-analysis core against its source.

Usernames and display names are modelled as `List Char`; timestamps are
modelled as rationals measured in days (the Python `datetime` parsing layer
is abstracted to an `Option`: `none` stands for a missing or unparseable
date, exactly the inputs on which the source's `try/except` returns the
negative default). Floating-point scores are modelled as rationals.
-/

/-- A friend/follower/following relation record: username and display name
(`name` / `displayName` keys of the JSON records handled by
`ThreatAnalyzer.check_suspicious_names`). -/
structure RUser where
  name : List Char
  displayName : List Char
  deriving DecidableEq

/-- A relation record placed in a suspicious subset: the original record plus
the `matched_pattern` label added by `check_suspicious_names`. -/
structure SuspiciousUser where
  user : RUser
  matched_pattern : List Char
  deriving DecidableEq

/-- Python `str.lower()` on a username, character by character. -/
def lowerStr (s : List Char) : List Char := s.map Char.toLower

/-- Python `str.upper()` on a pattern token, character by character. -/
def upperStr (s : List Char) : List Char := s.map Char.toUpper

/-- The fixed suspicious token list from `ThreatAnalyzer.__init__`
(`self.suspicious_patterns`). -/
def suspicious_patterns : List (List Char) :=
  ["xyris", "vqs", "risen", "sc", "dt", "xraid"].map String.toList

/-- Test `pattern in username or pattern in display_name` from
`check_suspicious_names`, where both names have been lowercased. -/
def tokenMatches (p : List Char) (u : RUser) : Bool :=
  decide (p <:+: lowerStr u.name) || decide (p <:+: lowerStr u.displayName)

/-- The inner `for pattern in self.suspicious_patterns: ... break` loop of
`check_suspicious_names`: the first token that matches, if any. -/
def findPattern (ps : List (List Char)) (u : RUser) : Option (List Char) :=
  match ps with
  | [] => none
  | p :: rest => if tokenMatches p u then some p else findPattern rest u

/-- Source `ThreatAnalyzer.check_suspicious_names`: walk the list of relation
records; a record whose first matching token is `p` is emitted once with
`matched_pattern = p.upper()`; records with no matching token are dropped. -/
def check_suspicious_names (users : List RUser) : List SuspiciousUser :=
  match users with
  | [] => []
  | u :: rest =>
    match findPattern suspicious_patterns u with
    | some p => ⟨u, upperStr p⟩ :: check_suspicious_names rest
    | none => check_suspicious_names rest

/-- Source `ThreatAnalyzer.check_account_age`: the parsing of the creation
timestamp is abstracted into the argument (`none` = malformed or
unparseable, on which the source's `except` branch returns `False`;
`some t` = the parsed timestamp, measured in days).  The source compares
`created_dt > datetime.now() - timedelta(days=120)`. -/
def check_account_age (created : Option ℚ) (now : ℚ) : Bool :=
  match created with
  | none => false
  | some t => decide (now - 120 < t)

/-- A badge record fetched from the API: id plus optional `name` and
`description` fields (the Python dict may lack either key). -/
structure Badge where
  id : Nat
  name : Option String
  description : Option String
  deriving DecidableEq

/-- A specific-badge match emitted by `check_specific_badges`. -/
structure FoundBadge where
  id : Nat
  name : String
  description : String
  expected_name : String
  deriving DecidableEq

/-- The fixed watch-list `self.specific_badge_ids` from
`ThreatAnalyzer.__init__`, id to expected display name. -/
def specific_badge_ids : List (Nat × String) :=
  [ (3057416426456972, "Baby Steps"),
    (3114670201603542, "Head First"),
    (3006399776257311, "A Natural"),
    (268490457371003, "Turning Point"),
    (341084106898320, "Seasoned Killer"),
    (2724124286915993, "Skull Seeker") ]

/-- Source `ThreatAnalyzer.check_specific_badges`: one entry per badge whose id is
a key of the watch list; `name` defaults to the expected name when the live
badge has no `name` field (`badge.get('name', ...)`), `description`
defaults to the empty string, and `expected_name` is the watch-list
value. -/
def check_specific_badges (badges : List Badge) : List FoundBadge :=
  match badges with
  | [] => []
  | b :: rest =>
    match specific_badge_ids.lookup b.id with
    | some expected =>
      ⟨b.id, b.name.getD expected, b.description.getD "", expected⟩
        :: check_specific_badges rest
    | none => check_specific_badges rest

/-- Source `ThreatAnalyzer.check_badge_count`: hard-coded `len(badges_list) < 40`. -/
def check_badge_count (badges : List Badge) : Bool :=
  decide (badges.length < 40)

/-- Modelled from the spec: the badge-count flag as the configuration
surface describes it — `true iff badge count < threshold` with the
threshold taken from the configurable `MIN_BADGE_COUNT` setting of
`ROBLOX_CONFIG` (config.py), which the spec says the check must consume. -/
def check_badge_count_configured (minBadgeCount : Nat) (badges : List Badge) : Bool :=
  decide (badges.length < minBadgeCount)

/-- The evidence bundle fields consumed by `calculate_threat_level`. -/
structure AnalysisResults where
  suspicious_friends : List SuspiciousUser
  suspicious_followers : List SuspiciousUser
  suspicious_following : List SuspiciousUser
  account_age_flag : Bool
  badge_count_flag : Bool
  specific_badges_found : List FoundBadge
  avatar_flag : Bool

/-- The `factors` dict of `calculate_threat_level`, in insertion order:
(observed count, cap `max_count`, weight) per factor. -/
def threat_factors (r : AnalysisResults) : List (Nat × Nat × Nat) :=
  [ (r.suspicious_friends.length, 3, 2),
    (r.suspicious_followers.length, 2, 1),
    (r.suspicious_following.length, 2, 1),
    ((if r.account_age_flag then 1 else 0), 1, 3),
    ((if r.badge_count_flag then 1 else 0), 1, 2),
    (r.specific_badges_found.length, 3, 2),
    ((if r.avatar_flag then 1 else 0), 1, 1) ]

/-- The `threat_score` accumulator: each factor adds
`min(count / max_count, 1.0) * weight`. -/
def threat_score (r : AnalysisResults) : ℚ :=
  (threat_factors r).foldl
    (fun acc f => acc + min ((f.1 : ℚ) / (f.2.1 : ℚ)) 1 * (f.2.2 : ℚ)) 0

/-- The `max_score` accumulator: the sum of the weights. -/
def threat_max_score (r : AnalysisResults) : ℚ :=
  (threat_factors r).foldl (fun acc f => acc + (f.2.2 : ℚ)) 0

/-- Percentage `threat_percentage = (threat_score / max_score) * 100` guarded by
`max_score > 0`. -/
def threat_percentage (r : AnalysisResults) : ℚ :=
  if 0 < threat_max_score r then threat_score r / threat_max_score r * 100 else 0

/-- Source `ThreatAnalyzer.calculate_threat_level`: the final verdict string. -/
def calculate_threat_level (r : AnalysisResults) : String :=
  if 70 ≤ threat_percentage r then "High"
  else if 40 ≤ threat_percentage r then "Medium"
  else "Low"

/-- A candidate record handed to `check_creation_date_patterns`: username
plus the `created_date` field.  The outer `Option` is `none` when the field
is missing (`friend_data.get('created_date')` falsy); the inner `Option`
is `none` when the date string is unparseable (the per-candidate `except`
branch); `some (some d)` is a parsed date, measured in days. -/
structure FriendData where
  name : List Char
  created_date : Option (Option Int)
  deriving DecidableEq

/-- One entry of the `same_period_accounts` output of
`check_creation_date_patterns`. -/
structure ClusterEntry where
  username : List Char
  created_date : Int
  days_apart : Nat
  deriving DecidableEq

/-- The candidate loop of `check_creation_date_patterns`: skip candidates
with a missing or unparseable date; emit a candidate whose absolute
day-difference from the target date `u` is at most 7, with its day gap. -/
def clusterLoop (u : Int) (friends : List FriendData) : List ClusterEntry :=
  match friends with
  | [] => []
  | f :: rest =>
    match f.created_date with
    | some (some d) =>
      if (u - d).natAbs ≤ 7 then ⟨f.name, d, (u - d).natAbs⟩ :: clusterLoop u rest
      else clusterLoop u rest
    | _ => clusterLoop u rest

/-- Source `ThreatAnalyzer.check_creation_date_patterns`: returns `[]` when the
target date is missing (`not user_created_date`), when the candidate list
is empty, or when the target date is unparseable (the outer `except`);
otherwise runs the candidate loop. -/
def check_creation_date_patterns (user_created_date : Option (Option Int))
    (friends : List FriendData) : List ClusterEntry :=
  match user_created_date, friends with
  | none, _ => []
  | _, [] => []
  | some none, _ => []
  | some (some u), fs => clusterLoop u fs

/-- One attempt's outcome in `RobloxAPI._rate_limited_request`: an HTTP
response (status plus an abstract JSON body) or a transport-level
exception raised by the GET. -/
inductive FetchOutcome where
  | httpResp (status : Nat) (body : Nat)
  | transportError
  deriving DecidableEq

/-- The observable behaviour of one `_rate_limited_request` run: the value
returned to the caller, the list of back-off sleeps performed between
attempts (in time units: `min(8, 2**attempt)` after a 429, `1` after a
transport error), and the number of attempts made. -/
structure RequestResult where
  result : Option Nat
  sleeps : List Nat
  attempts : Nat
  deriving DecidableEq

/-- The `for attempt in range(max_retries)` loop of
`_rate_limited_request`, with `resp i` the server's answer to attempt `i`
(0-based) and `remaining = max_retries - attempt` iterations left.  Status
200 returns the body; status 429 sleeps `min(8, 2**attempt)` and retries
unless this is the last allowed attempt (`attempt < max_retries - 1`); any
other status returns `None` at once; a transport exception sleeps 1 and
retries unless this is the last allowed attempt. -/
def requestLoop (resp : Nat → FetchOutcome) (maxRetries : Nat) :
    Nat → Nat → RequestResult
  | _, 0 => ⟨none, [], 0⟩
  | attempt, remaining + 1 =>
    match resp attempt with
    | .httpResp status body =>
      if status = 200 then ⟨some body, [], 1⟩
      else if status = 429 then
        if attempt < maxRetries - 1 then
          let r := requestLoop resp maxRetries (attempt + 1) remaining
          ⟨r.result, min 8 (2 ^ attempt) :: r.sleeps, r.attempts + 1⟩
        else ⟨none, [], 1⟩
      else ⟨none, [], 1⟩
    | .transportError =>
      if attempt < maxRetries - 1 then
        let r := requestLoop resp maxRetries (attempt + 1) remaining
        ⟨r.result, 1 :: r.sleeps, r.attempts + 1⟩
      else ⟨none, [], 1⟩

/-- Source `RobloxAPI._rate_limited_request(url, max_retries)` run against the
response sequence `resp`. -/
def rate_limited_request (resp : Nat → FetchOutcome) (maxRetries : Nat) :
    RequestResult :=
  requestLoop resp maxRetries 0 maxRetries

/-- Semantics of `re.match(r'^(.+?)(\d+)$', s)` in
`check_username_generation_patterns`: the non-greedy base group takes the
shortest non-empty prefix whose non-empty remainder consists solely of
digits; `none` when the string does not end in a digit run preceded by at
least one character. -/
def splitTrailingNumber (s : List Char) : Option (List Char × List Char) :=
  match s with
  | [] => none
  | c :: rest =>
    if rest ≠ [] ∧ rest.all Char.isDigit then some ([c], rest)
    else
      match splitTrailingNumber rest with
      | some (b, ds) => some (c :: b, ds)
      | none => none

/-- Python `int(number)` on the digit group. -/
def digitsToNat (ds : List Char) : Nat :=
  ds.foldl (fun acc c => acc * 10 + (c.toNat - '0'.toNat)) 0

/-- Step `number_base_groups[base_name].append((username, int(number)))` on a
`defaultdict(list)`: groups are kept in key-insertion order and a new
entry is appended at the end of its group's list. -/
def addToGroups (groups : List (List Char × List (List Char × Nat)))
    (key : List Char) (entry : List Char × Nat) :
    List (List Char × List (List Char × Nat)) :=
  match groups with
  | [] => [(key, [entry])]
  | (k, l) :: rest =>
    if k = key then (k, l ++ [entry]) :: rest
    else (k, l) :: addToGroups rest key entry

/-- The grouping pass of Pattern 1 in
`check_username_generation_patterns`: each username is matched (on its
lowercased form) against the trailing-number regex and, on a match, the
original username together with the numeric value of its suffix is
appended to the group of its base name. -/
def buildNumberGroups (usernames : List (List Char)) :
    List (List Char × List (List Char × Nat)) :=
  usernames.foldl
    (fun groups u =>
      match splitTrailingNumber (lowerStr u) with
      | some (b, ds) => addToGroups groups b (u, digitsToNat ds)
      | none => groups) []

/-- Python `user_list.sort(key=lambda x: x[1])`: stable ascending insertion by
numeric suffix. -/
def insertByNum (x : List Char × Nat) (l : List (List Char × Nat)) :
    List (List Char × Nat) :=
  match l with
  | [] => [x]
  | y :: rest => if x.2 ≤ y.2 then x :: y :: rest else y :: insertByNum x rest

/-- Stable sort of a group by numeric suffix (Python's stable `sort`). -/
def sortByNum (l : List (List Char × Nat)) : List (List Char × Nat) :=
  match l with
  | [] => []
  | x :: rest => insertByNum x (sortByNum rest)

/-- The `is_sequential` loop over the sorted suffix values: break (report
not sequential) as soon as a consecutive gap exceeds 3. -/
def gapsWithinThree (nums : List Nat) : Bool :=
  match nums with
  | a :: b :: rest => if b - a > 3 then false else gapsWithinThree (b :: rest)
  | _ => true

/-- A username-generation pattern record.  The source also formats
`pattern` and `description` presentation strings from the same base name
and username list; those carry no additional information and are omitted
here. -/
structure UsernamePattern where
  ptype : String
  base : List Char
  usernames : List (List Char)
  deriving DecidableEq

/-- The reporting pass of Pattern 1: for each group, in insertion order,
with at least 2 members whose sorted suffix values have all consecutive
gaps at most 3, emit a Sequential Numbers pattern listing the group's
usernames in sorted order. -/
def seqPatternsOfGroups (groups : List (List Char × List (List Char × Nat))) :
    List UsernamePattern :=
  match groups with
  | [] => []
  | (b, l) :: rest =>
    if 2 ≤ l.length then
      if gapsWithinThree ((sortByNum l).map Prod.snd) then
        ⟨"Sequential Numbers", b, (sortByNum l).map Prod.fst⟩
          :: seqPatternsOfGroups rest
      else seqPatternsOfGroups rest
    else seqPatternsOfGroups rest

/-- The Pattern 1 (Sequential Numbers) section of
`ThreatAnalyzer.check_username_generation_patterns`, as a function of the
candidate username list. -/
def check_sequential_number_patterns (usernames : List (List Char)) :
    List UsernamePattern :=
  seqPatternsOfGroups (buildNumberGroups usernames)

/-- The literal entry sequence of the `substitutions` dict in
`_check_character_substitution_similarity`, including the duplicate key
`'1'` (written once as `'1': 'i'` and again as `'1': 'l'`). -/
def substitution_entries : List (Char × Char) :=
  [('0', 'o'), ('1', 'i'), ('1', 'l'), ('3', 'e'), ('4', 'a'),
   ('5', 's'), ('7', 't'), ('8', 'b'), ('@', 'a')]

/-- Python dict insertion: a repeated key keeps its original position and
takes the new value. -/
def dictInsert (d : List (Char × Char)) (k v : Char) : List (Char × Char) :=
  match d with
  | [] => [(k, v)]
  | (k0, v0) :: rest =>
    if k0 = k then (k0, v) :: rest else (k0, v0) :: dictInsert rest k v

/-- The `substitutions` dict as Python evaluates the literal: entries
inserted left to right, later duplicate keys overriding earlier values. -/
def substitutions : List (Char × Char) :=
  substitution_entries.foldl (fun d e => dictInsert d e.1 e.2) []

/-- Python `str.replace(num, char)` for a single-character needle. -/
def replaceChar (s : List Char) (k v : Char) : List Char :=
  s.map fun c => if c = k then v else c

/-- The `normalize_username` closure: apply each dict entry's replacement
in items order. -/
def normalize_username (s : List Char) : List Char :=
  substitutions.foldl (fun acc e => replaceChar acc e.1 e.2) s

/-- Count `sum(1 for a, b in zip(norm1, norm2) if a == b)`. -/
def countPositionalMatches : List Char → List Char → Nat
  | a :: as, b :: bs =>
    (if a = b then 1 else 0) + countPositionalMatches as bs
  | _, _ => 0

/-- Source `ThreatAnalyzer._check_character_substitution_similarity`: normalize
both usernames, return 0 if either normalized form is empty, otherwise
positional matches divided by the longer normalized length. -/
def check_character_substitution_similarity (u1 u2 : List Char) : ℚ :=
  let n1 := normalize_username u1
  let n2 := normalize_username u2
  if n1.length = 0 ∨ n2.length = 0 then 0
  else
    let maxLen := max n1.length n2.length
    if 0 < maxLen then (countPositionalMatches n1 n2 : ℚ) / (maxLen : ℚ) else 0

/-- The substitution map as the claim reads it: every digit key maps to its
letter with `'1'` mapping to `'l'` (the later literal entry), all other
characters unchanged. -/
def leetSubst (c : Char) : Char :=
  if c = '0' then 'o'
  else if c = '1' then 'l'
  else if c = '3' then 'e'
  else if c = '4' then 'a'
  else if c = '5' then 's'
  else if c = '7' then 't'
  else if c = '8' then 'b'
  else if c = '@' then 'a'
  else c

/-- Helper: the inner pattern loop agrees with `List.find?`, i.e. it returns
the first token of the list that matches the record. -/
theorem findPattern_eq_findFirst (u : RUser) (ps : List (List Char)) :
    findPattern ps u = ps.find? fun q => tokenMatches q u := by
  induction ps with
  | nil => rfl
  | cons p rest ih =>
    cases h : tokenMatches p u <;> simp [findPattern, List.find?, h, ih]

/-- Helper: one step of `check_suspicious_names` — a record contributes at
most one output entry, labelled by its first matching token. -/
theorem check_suspicious_names_cons (u : RUser) (rest : List RUser) :
    check_suspicious_names (u :: rest)
      = (match suspicious_patterns.find? fun q => tokenMatches q u with
         | some p => [⟨u, upperStr p⟩]
         | none => []) ++ check_suspicious_names rest := by
  rw [check_suspicious_names, findPattern_eq_findFirst]
  cases suspicious_patterns.find? fun q => tokenMatches q u <;> simp

/-- Helper: every output record of `check_suspicious_names` comes from an
input record and carries the uppercased first matching token. -/
theorem mem_check_suspicious_names (users : List RUser) :
    ∀ e ∈ check_suspicious_names users, e.user ∈ users ∧
      ∃ p, (suspicious_patterns.find? fun q => tokenMatches q e.user) = some p ∧
        e.matched_pattern = upperStr p := by
  induction users with
  | nil => intro e he; simp [check_suspicious_names] at he
  | cons u rest ih =>
    intro e he
    rw [check_suspicious_names_cons] at he
    cases h : suspicious_patterns.find? fun q => tokenMatches q u with
    | some p =>
      rw [h] at he
      rcases List.mem_cons.mp he with rfl | he2
      · exact ⟨List.mem_cons_self _ _, p, h, rfl⟩
      · rcases ih e he2 with ⟨hu, hp⟩
        exact ⟨List.mem_cons_of_mem _ hu, hp⟩
    | none =>
      rw [h] at he
      simp only [List.nil_append] at he
      rcases ih e he with ⟨hu, hp⟩
      exact ⟨List.mem_cons_of_mem _ hu, hp⟩

/-- Helper: the number of suspicious output records equals the number of
input records with at least one matching token. -/
theorem length_check_suspicious_names (users : List RUser) :
    (check_suspicious_names users).length
      = (users.filter fun v =>
          (suspicious_patterns.find? fun q => tokenMatches q v).isSome).length := by
  induction users with
  | nil => rfl
  | cons u rest ih =>
    rw [check_suspicious_names_cons]
    cases h : suspicious_patterns.find? fun q => tokenMatches q u <;>
      simp [h, List.filter_cons, ih]

/-- C2: every record placed by `check_suspicious_names` in the suspicious
output carries exactly one `matched_pattern` label, equal to the uppercased
form of the first token (in the fixed token-list order, the tokens being
already lowercase) whose lowercase form is an infix of the record's
lowercased username or display name; a record matching several tokens
contributes exactly one output entry, and a record containing no token
does not appear at all. -/
theorem check_suspicious_names_spec (users : List RUser) (u : RUser)
    (rest : List RUser) :
    (∀ p ∈ suspicious_patterns, lowerStr p = p) ∧
    check_suspicious_names (u :: rest)
      = (match suspicious_patterns.find? fun q => tokenMatches q u with
         | some p => [⟨u, upperStr p⟩]
         | none => []) ++ check_suspicious_names rest ∧
    (∀ e ∈ check_suspicious_names users, e.user ∈ users ∧
       ∃ p, (suspicious_patterns.find? fun q => tokenMatches q e.user) = some p ∧
         e.matched_pattern = upperStr p) ∧
    (check_suspicious_names users).length
      = (users.filter fun v =>
          (suspicious_patterns.find? fun q => tokenMatches q v).isSome).length ∧
    (∀ v ∈ users, (suspicious_patterns.find? fun q => tokenMatches q v) = none →
       ∀ e ∈ check_suspicious_names users, e.user ≠ v) := by
  refine ⟨by decide, check_suspicious_names_cons u rest,
    mem_check_suspicious_names users, length_check_suspicious_names users, ?_⟩
  intro v _ hnone e he heq
  rcases (mem_check_suspicious_names users e he).2 with ⟨p, hp, _⟩
  rw [heq, hnone] at hp
  exact Option.noConfusion hp

/-- C2 witness: a record named `Xyris_fan` is flagged with label `XYRIS`,
the uppercased first matching token. -/
theorem check_suspicious_names_spec_witness :
    (⟨⟨"Xyris_fan".toList, "".toList⟩, "XYRIS".toList⟩ : SuspiciousUser).user
        ∈ [(⟨"Xyris_fan".toList, "".toList⟩ : RUser)] ∧
    ∃ p, (suspicious_patterns.find? fun q => tokenMatches q
        (⟨⟨"Xyris_fan".toList, "".toList⟩, "XYRIS".toList⟩ :
          SuspiciousUser).user) = some p ∧
      (⟨⟨"Xyris_fan".toList, "".toList⟩, "XYRIS".toList⟩ :
        SuspiciousUser).matched_pattern = upperStr p :=
  (check_suspicious_names_spec [⟨"Xyris_fan".toList, "".toList⟩]
      ⟨"".toList, "".toList⟩ []).2.2.1
    ⟨⟨"Xyris_fan".toList, "".toList⟩, "XYRIS".toList⟩ (by decide)

/-- C5: for every reference time `now` (in days) the account-age check is
true iff the creation timestamp is strictly more recent than `now - 120`
days; `now - 10` days yields true, `now - 200` days yields false, the
boundary `now - 120` days yields false, and a malformed timestamp yields
false. -/
theorem check_account_age_spec (now t : ℚ) :
    (check_account_age (some t) now = true ↔ now - 120 < t) ∧
    check_account_age (some (now - 10)) now = true ∧
    check_account_age (some (now - 200)) now = false ∧
    check_account_age (some (now - 120)) now = false ∧
    check_account_age none now = false := by
  refine ⟨by simp [check_account_age], ?_, ?_, ?_, rfl⟩
  · simp only [check_account_age, decide_eq_true_eq]
    linarith
  · simp only [check_account_age, decide_eq_false_iff_not, not_lt]
    linarith
  · simp only [check_account_age, decide_eq_false_iff_not, not_lt]
    linarith

/-- C1: `calculate_threat_level` sums, over the seven factors with the
fixed caps and weights of the source's factor table, the contribution
`min(observed / cap, 1) * weight`, divides by the total weight 12 and
scales to a percentage; the verdict is High iff the percentage is at least
70, Medium iff it is at least 40 and below 70, and Low otherwise; all
factors at zero yield Low, and the account-age flag alone yields exactly
25 percent and Low. -/
theorem calculate_threat_level_spec (r : AnalysisResults) :
    threat_percentage r =
      (min ((r.suspicious_friends.length : ℚ) / 3) 1 * 2
        + min ((r.suspicious_followers.length : ℚ) / 2) 1 * 1
        + min ((r.suspicious_following.length : ℚ) / 2) 1 * 1
        + min ((if r.account_age_flag then (1 : ℚ) else 0) / 1) 1 * 3
        + min ((if r.badge_count_flag then (1 : ℚ) else 0) / 1) 1 * 2
        + min ((r.specific_badges_found.length : ℚ) / 3) 1 * 2
        + min ((if r.avatar_flag then (1 : ℚ) else 0) / 1) 1 * 1) / 12 * 100 ∧
    (calculate_threat_level r = "High" ↔ 70 ≤ threat_percentage r) ∧
    (calculate_threat_level r = "Medium" ↔
       40 ≤ threat_percentage r ∧ threat_percentage r < 70) ∧
    (calculate_threat_level r = "Low" ↔ threat_percentage r < 40) ∧
    calculate_threat_level ⟨[], [], [], false, false, [], false⟩ = "Low" ∧
    threat_percentage ⟨[], [], [], true, false, [], false⟩ = 25 ∧
    calculate_threat_level ⟨[], [], [], true, false, [], false⟩ = "Low" := by
  refine ⟨?_, ?_, ?_, ?_, ?_, ?_, ?_⟩
  · rcases r with ⟨f, fo, fg, age, bc, sb, av⟩
    rcases age <;> rcases bc <;> rcases av <;>
      simp only [threat_percentage, threat_score, threat_max_score,
        threat_factors, List.foldl, if_true, if_false, Bool.false_eq_true] <;>
      norm_num
  · unfold calculate_threat_level
    split_ifs with h1 h2 <;> simp [h1]
  · unfold calculate_threat_level
    split_ifs with h1 h2 <;> simp_all <;> linarith
  · unfold calculate_threat_level
    split_ifs with h1 h2 <;> simp_all <;> linarith
  · norm_num [calculate_threat_level, threat_percentage, threat_score,
      threat_max_score, threat_factors, List.foldl]
  · norm_num [threat_percentage, threat_score, threat_max_score,
      threat_factors, List.foldl]
  · norm_num [calculate_threat_level, threat_percentage, threat_score,
      threat_max_score, threat_factors, List.foldl]

/-- Helper: `check_specific_badges` is the watch-list lookup mapped over
the badge list. -/
theorem check_specific_badges_eq_filterMap (badges : List Badge) :
    check_specific_badges badges
      = badges.filterMap fun b =>
          (specific_badge_ids.lookup b.id).map fun expected =>
            ⟨b.id, b.name.getD expected, b.description.getD "", expected⟩ := by
  induction badges with
  | nil => rfl
  | cons b rest ih =>
    cases h : specific_badge_ids.lookup b.id <;>
      simp [check_specific_badges, h, ih, List.filterMap_cons]

/-- Helper: one match entry per badge whose id is in the watch list. -/
theorem length_check_specific_badges (badges : List Badge) :
    (check_specific_badges badges).length
      = (badges.filter fun b => (specific_badge_ids.lookup b.id).isSome).length := by
  induction badges with
  | nil => rfl
  | cons b rest ih =>
    cases h : specific_badge_ids.lookup b.id <;>
      simp [check_specific_badges, h, List.filter_cons, ih]

/-- C6: the specific-badge check returns one match entry per badge whose id
is in the watch-list map, each entry's `expected_name` equals the
watch-list's display name for that id regardless of the live badge's
`name` field, and badges whose id is not in the watch list produce no
entry. -/
theorem check_specific_badges_spec (badges : List Badge) :
    (∀ e ∈ check_specific_badges badges,
       specific_badge_ids.lookup e.id = some e.expected_name) ∧
    (check_specific_badges badges).length
      = (badges.filter fun b => (specific_badge_ids.lookup b.id).isSome).length ∧
    check_specific_badges badges
      = badges.filterMap fun b =>
          (specific_badge_ids.lookup b.id).map fun expected =>
            ⟨b.id, b.name.getD expected, b.description.getD "", expected⟩ := by
  refine ⟨?_, length_check_specific_badges badges,
    check_specific_badges_eq_filterMap badges⟩
  intro e he
  rw [check_specific_badges_eq_filterMap] at he
  rcases List.mem_filterMap.mp he with ⟨b, _, hfb⟩
  rcases Option.map_eq_some'.mp hfb with ⟨expected, hlook, he2⟩
  subst he2
  simpa using hlook

/-- C6 witness: a watch-listed badge carrying a divergent live name still
gets `expected_name` equal to the watch-list's display name. -/
theorem check_specific_badges_spec_witness :
    specific_badge_ids.lookup
        ((⟨3006399776257311, "Fake name", "", "A Natural"⟩ : FoundBadge).id)
      = some ((⟨3006399776257311, "Fake name", "", "A Natural"⟩ :
          FoundBadge).expected_name) :=
  (check_specific_badges_spec [⟨3006399776257311, some "Fake name", none⟩]).1
    ⟨3006399776257311, "Fake name", "", "A Natural"⟩ (by decide)

/-- Helper: the candidate loop of the creation-date clustering check is a
`filterMap` — each candidate occurrence contributes at most one entry, and
missing or unparseable dates are skipped without affecting the rest. -/
theorem clusterLoop_eq_filterMap (u : Int) (friends : List FriendData) :
    clusterLoop u friends = friends.filterMap fun f =>
      match f.created_date with
      | some (some d) =>
        if (u - d).natAbs ≤ 7 then some ⟨f.name, d, (u - d).natAbs⟩ else none
      | _ => none := by
  induction friends with
  | nil => rfl
  | cons f rest ih =>
    rcases h : f.created_date with _ | h2
    · simp [clusterLoop, h, ih, List.filterMap_cons]
    · rcases h2 with _ | d
      · simp [clusterLoop, h, ih, List.filterMap_cons]
      · simp only [clusterLoop, h, List.filterMap_cons]
        split_ifs <;> simp [ih]

/-- Helper: with a parseable target date the wrapper just runs the loop. -/
theorem check_creation_date_patterns_run (u : Int) (friends : List FriendData) :
    check_creation_date_patterns (some (some u)) friends
      = clusterLoop u friends := by
  cases friends <;> rfl

/-- C8: for every parseable target creation date, the clustering check
reports exactly those candidates whose absolute day-difference from the
target is at most 7 days, each occurrence reported exactly once together
with its day gap, while candidates with a missing or unparseable date are
skipped without aborting the run. -/
theorem check_creation_date_patterns_spec (u : Int) (friends : List FriendData) :
    check_creation_date_patterns (some (some u)) friends
      = friends.filterMap (fun f =>
          match f.created_date with
          | some (some d) =>
            if (u - d).natAbs ≤ 7 then some ⟨f.name, d, (u - d).natAbs⟩ else none
          | _ => none) ∧
    (∀ e ∈ check_creation_date_patterns (some (some u)) friends,
       e.days_apart = (u - e.created_date).natAbs ∧ e.days_apart ≤ 7 ∧
       ∃ f ∈ friends, f.name = e.username ∧
         f.created_date = some (some e.created_date)) ∧
    (∀ f ∈ friends, ∀ d, f.created_date = some (some d) → (u - d).natAbs ≤ 7 →
       (⟨f.name, d, (u - d).natAbs⟩ : ClusterEntry)
         ∈ check_creation_date_patterns (some (some u)) friends) := by
  have heq := (check_creation_date_patterns_run u friends).trans
    (clusterLoop_eq_filterMap u friends)
  refine ⟨heq, ?_, ?_⟩
  · intro e he
    rw [heq] at he
    rcases List.mem_filterMap.mp he with ⟨f, hf, hfe⟩
    rcases h : f.created_date with _ | h2
    · rw [h] at hfe; exact Option.noConfusion hfe
    · rcases h2 with _ | d
      · rw [h] at hfe; exact Option.noConfusion hfe
      · rw [h] at hfe
        dsimp only at hfe
        split_ifs at hfe with hle
        rcases Option.some.inj hfe with rfl
        exact ⟨rfl, hle, f, hf, rfl, h⟩
  · intro f hf d hd hle
    rw [heq]
    refine List.mem_filterMap.mpr ⟨f, hf, ?_⟩
    rw [hd]
    simp [hle]

/-- C8 witness: a candidate created 3 days after the target is reported
with a day gap of 3. -/
theorem check_creation_date_patterns_spec_witness :
    (⟨"a".toList, 3, ((0 : Int) - 3).natAbs⟩ : ClusterEntry)
      ∈ check_creation_date_patterns (some (some 0))
          [⟨"a".toList, some (some 3)⟩] :=
  (check_creation_date_patterns_spec 0 [⟨"a".toList, some (some 3)⟩]).2.2
    ⟨"a".toList, some (some 3)⟩ (by decide) 3 rfl (by decide)

/-- Helper: a request only returns data when some attempt within the
allowed window received HTTP 200. -/
theorem requestLoop_some_of_result (resp : Nat → FetchOutcome) (maxRetries : Nat) :
    ∀ remaining attempt body,
      (requestLoop resp maxRetries attempt remaining).result = some body →
      ∃ i, attempt ≤ i ∧ i < attempt + remaining ∧ resp i = .httpResp 200 body := by
  intro remaining
  induction remaining with
  | zero => intro attempt body h; simp [requestLoop] at h
  | succ rem ih =>
    intro attempt body h
    rw [requestLoop] at h
    cases hr : resp attempt with
    | httpResp status b =>
      rw [hr] at h
      dsimp only at h
      by_cases h200 : status = 200
      · rw [if_pos h200] at h
        rcases Option.some.inj h with rfl
        exact ⟨attempt, le_refl _, by omega, by rw [hr, h200]⟩
      · rw [if_neg h200] at h
        by_cases h429 : status = 429
        · rw [if_pos h429] at h
          by_cases hlast : attempt < maxRetries - 1
          · rw [if_pos hlast] at h
            rcases ih (attempt + 1) body h with ⟨i, hi1, hi2, hi3⟩
            exact ⟨i, by omega, by omega, hi3⟩
          · rw [if_neg hlast] at h
            exact Option.noConfusion h
        · rw [if_neg h429] at h
          exact Option.noConfusion h
    | transportError =>
      rw [hr] at h
      dsimp only at h
      by_cases hlast : attempt < maxRetries - 1
      · rw [if_pos hlast] at h
        rcases ih (attempt + 1) body h with ⟨i, hi1, hi2, hi3⟩
        exact ⟨i, by omega, by omega, hi3⟩
      · rw [if_neg hlast] at h
        exact Option.noConfusion h

/-- Helper: the loop never makes more attempts than iterations remain. -/
theorem requestLoop_attempts_le (resp : Nat → FetchOutcome) (maxRetries : Nat) :
    ∀ remaining attempt,
      (requestLoop resp maxRetries attempt remaining).attempts ≤ remaining := by
  intro remaining
  induction remaining with
  | zero => intro attempt; simp [requestLoop]
  | succ rem ih =>
    intro attempt
    rw [requestLoop]
    cases resp attempt with
    | httpResp status b =>
      dsimp only
      split_ifs
      · exact Nat.succ_le_succ (Nat.zero_le rem)
      · exact Nat.succ_le_succ (ih (attempt + 1))
      · exact Nat.succ_le_succ (Nat.zero_le rem)
      · exact Nat.succ_le_succ (Nat.zero_le rem)
    | transportError =>
      dsimp only
      split_ifs
      · exact Nat.succ_le_succ (ih (attempt + 1))
      · exact Nat.succ_le_succ (Nat.zero_le rem)

/-- C4: the fetch client's request never surfaces an error to its caller —
it is a total function into an optional result: whenever no attempt in the
allowed window answers HTTP 200 (all 429s, other non-2xx statuses,
transport failures, in any combination), the result is null; a first
response with a non-200, non-429 status ends the run immediately with a
null result, one attempt and no back-off wait; and the attempt count never
exceeds the retry budget. -/
theorem rate_limited_request_error_handling (resp : Nat → FetchOutcome)
    (maxRetries : Nat) :
    ((∀ i < maxRetries, ∀ body, resp i ≠ .httpResp 200 body) →
      (rate_limited_request resp maxRetries).result = none) ∧
    (∀ status body, 0 < maxRetries → resp 0 = .httpResp status body →
      status ≠ 200 → status ≠ 429 →
      rate_limited_request resp maxRetries = ⟨none, [], 1⟩) ∧
    (rate_limited_request resp maxRetries).attempts ≤ maxRetries := by
  refine ⟨?_, ?_, requestLoop_attempts_le resp maxRetries maxRetries 0⟩
  · intro hno
    cases hres : (rate_limited_request resp maxRetries).result with
    | none => rfl
    | some body =>
      rcases requestLoop_some_of_result resp maxRetries maxRetries 0 body hres
        with ⟨i, _, hi, h200⟩
      exact absurd h200 (hno i (by omega) body)
  · intro status body hpos h0 h200 h429
    rcases maxRetries with _ | mr
    · omega
    · rw [rate_limited_request, requestLoop, h0]
      dsimp only
      rw [if_neg h200, if_neg h429]

/-- C4 witness: a server answering HTTP 404 makes the client return null
after a single attempt with no back-off. -/
theorem rate_limited_request_error_handling_witness :
    rate_limited_request (fun _ => FetchOutcome.httpResp 404 0) 3
      = ⟨none, [], 1⟩ :=
  (rate_limited_request_error_handling
      (fun _ => FetchOutcome.httpResp 404 0) 3).2.1
    404 0 (by decide) rfl (by decide) (by decide)

/-- C3: against a server answering HTTP 429 on every attempt with
`maxRetries = 3`, the client returns null after exactly 3 attempts and
does not wait after the final attempt, but the two back-off waits are
`min(8, 2 ** attempt)` with `attempt` starting at 0 — that is 1 then 2
time units, not the 2 then 4 stated by the claim and by the source's own
`Exponential backoff: 2, 4, 8 seconds` comment. -/
theorem rate_limited_request_429_trace :
    rate_limited_request (fun _ => FetchOutcome.httpResp 429 0) 3
      = ⟨none, [1, 2], 3⟩ := by
  decide

/-- C9: `check_badge_count` ignores the configurable `MIN_BADGE_COUNT`
setting — with the threshold overridden to 10, a list of 20 badges should
not be flagged, yet the source's hard-coded threshold of 40 flags it. -/
theorem check_badge_count_ignores_config :
    check_badge_count (List.replicate 20 ⟨0, none, none⟩) = true ∧
    check_badge_count_configured 10 (List.replicate 20 ⟨0, none, none⟩) = false := by
  decide

/-- Helper: the `substitutions` dict, built with Python's
last-duplicate-wins insertion, maps `'1'` to `'l'`. -/
theorem substitutions_eq :
    substitutions = [('0', 'o'), ('1', 'l'), ('3', 'e'), ('4', 'a'),
      ('5', 's'), ('7', 't'), ('8', 'b'), ('@', 'a')] := by
  decide

/-- Helper: folding per-character replacements over a string is mapping the
folded character function over it. -/
theorem foldl_replaceChar_map (l : List (Char × Char)) :
    ∀ s : List Char,
      l.foldl (fun acc e => replaceChar acc e.1 e.2) s
        = s.map fun c => l.foldl (fun x e => if x = e.1 then e.2 else x) c := by
  induction l with
  | nil => intro s; simp
  | cons e rest ih =>
    intro s
    simp only [List.foldl_cons]
    rw [ih (replaceChar s e.1 e.2)]
    simp only [replaceChar, List.map_map]
    rfl

/-- Helper: the folded replacement chain acts on each character exactly as
the claim's substitution map. -/
theorem charFold_eq_leetSubst (c : Char) :
    substitutions.foldl (fun x e => if x = e.1 then e.2 else x) c = leetSubst c := by
  rw [substitutions_eq]
  by_cases h0 : c = '0'
  · subst h0; decide
  by_cases h1 : c = '1'
  · subst h1; decide
  by_cases h3 : c = '3'
  · subst h3; decide
  by_cases h4 : c = '4'
  · subst h4; decide
  by_cases h5 : c = '5'
  · subst h5; decide
  by_cases h7 : c = '7'
  · subst h7; decide
  by_cases h8 : c = '8'
  · subst h8; decide
  by_cases hat : c = '@'
  · subst hat; decide
  simp [List.foldl_cons, List.foldl_nil, leetSubst, h0, h1, h3, h4, h5, h7,
    h8, hat]

/-- Helper: normalization is the pointwise substitution map. -/
theorem normalize_username_eq_map (s : List Char) :
    normalize_username s = s.map leetSubst := by
  rw [normalize_username, foldl_replaceChar_map,
    show (fun c => substitutions.foldl (fun x e => if x = e.1 then e.2 else x) c)
      = leetSubst from funext charFold_eq_leetSubst]

/-- C10: the normalization of the character-substitution similarity check
replaces every `'1'` with `'l'` and never with `'i'` (the duplicate dict
entry is superseded), and for every pair of usernames the similarity score
is the positional character matches over the longer normalized length,
computed under that map. -/
theorem character_substitution_similarity_spec (u1 u2 : List Char) :
    normalize_username u1 = u1.map leetSubst ∧
    leetSubst '1' = 'l' ∧
    normalize_username ['1'] = ['l'] ∧
    check_character_substitution_similarity u1 u2
      = (if u1.length = 0 ∨ u2.length = 0 then 0
         else (countPositionalMatches (u1.map leetSubst) (u2.map leetSubst) : ℚ)
           / (max u1.length u2.length : ℚ)) := by
  refine ⟨normalize_username_eq_map u1, by decide, by decide, ?_⟩
  rw [check_character_substitution_similarity]
  simp only [normalize_username_eq_map, List.length_map]
  by_cases h : u1.length = 0 ∨ u2.length = 0
  · rw [if_pos h, if_pos h]
  · have hpos : 0 < max u1.length u2.length := by
      rcases Nat.eq_zero_or_pos u1.length with h1 | h1
      · exact absurd (Or.inl h1) h
      · exact Nat.lt_of_lt_of_le h1 (le_max_left _ _)
    rw [if_neg h, if_neg h, if_pos hpos, Nat.cast_max]

/-- Helper: the break-style `is_sequential` loop holds exactly when every
consecutive gap in the sorted suffix list is at most 3. -/
theorem gapsWithinThree_iff (nums : List Nat) :
    gapsWithinThree nums = true ↔ List.Chain' (fun a b => b - a ≤ 3) nums := by
  induction nums with
  | nil => simp [gapsWithinThree]
  | cons a rest ih =>
    cases rest with
    | nil => simp [gapsWithinThree]
    | cons b t =>
      rw [gapsWithinThree]
      by_cases h : b - a > 3
      · rw [if_pos h]
        simp only [Bool.false_eq_true, false_iff, List.chain'_cons, not_and]
        intro hba
        exact absurd hba (by omega)
      · rw [if_neg h, ih]
        simp only [List.chain'_cons]
        constructor
        · intro hc
          exact ⟨by omega, hc⟩
        · rintro ⟨_, hc⟩
          exact hc

/-- Helper: the reporting pass over the groups is a `filterMap` guarded by
the group-size and gap conditions. -/
theorem seqPatternsOfGroups_eq_filterMap
    (groups : List (List Char × List (List Char × Nat))) :
    seqPatternsOfGroups groups = groups.filterMap fun g =>
      if 2 ≤ g.2.length ∧ gapsWithinThree ((sortByNum g.2).map Prod.snd) = true
      then some ⟨"Sequential Numbers", g.1, (sortByNum g.2).map Prod.fst⟩
      else none := by
  induction groups with
  | nil => rfl
  | cons g rest ih =>
    rcases g with ⟨b, l⟩
    by_cases h1 : 2 ≤ l.length <;>
      by_cases h2 : gapsWithinThree ((sortByNum l).map Prod.snd) = true <;>
      simp [seqPatternsOfGroups, List.filterMap_cons, h1, h2, ih]

/-- C7: the sequential-numbering detector groups usernames by trailing
integer suffix via the regex split, and reports a Sequential Numbers
pattern for a group exactly when the group has at least 2 members and,
after sorting by suffix value, every consecutive suffix gap is at most 3;
in particular `bot1, bot2, bot3` yield one Sequential Numbers pattern
containing all three usernames, and `bot1, bot9` (gap 8) yield no
pattern. -/
theorem check_sequential_number_patterns_spec (users : List (List Char)) :
    (∀ p ∈ check_sequential_number_patterns users,
       p.ptype = "Sequential Numbers" ∧
       ∃ l, (p.base, l) ∈ buildNumberGroups users ∧ 2 ≤ l.length ∧
         List.Chain' (fun a b => b - a ≤ 3) ((sortByNum l).map Prod.snd) ∧
         p.usernames = (sortByNum l).map Prod.fst) ∧
    (∀ b l, (b, l) ∈ buildNumberGroups users → 2 ≤ l.length →
       List.Chain' (fun a b => b - a ≤ 3) ((sortByNum l).map Prod.snd) →
       (⟨"Sequential Numbers", b, (sortByNum l).map Prod.fst⟩ : UsernamePattern)
         ∈ check_sequential_number_patterns users) ∧
    check_sequential_number_patterns (["bot1", "bot2", "bot3"].map String.toList)
      = [⟨"Sequential Numbers", "bot".toList,
          ["bot1", "bot2", "bot3"].map String.toList⟩] ∧
    check_sequential_number_patterns (["bot1", "bot9"].map String.toList) = [] := by
  refine ⟨?_, ?_, by decide, by decide⟩
  · intro p hp
    rw [check_sequential_number_patterns, seqPatternsOfGroups_eq_filterMap] at hp
    rcases List.mem_filterMap.mp hp with ⟨⟨b, l⟩, hmem, hstep⟩
    dsimp only at hstep
    split_ifs at hstep with hcond
    rcases Option.some.inj hstep with rfl
    exact ⟨rfl, l, hmem, hcond.1, (gapsWithinThree_iff _).mp hcond.2, rfl⟩
  · intro b l hmem hlen hchain
    rw [check_sequential_number_patterns, seqPatternsOfGroups_eq_filterMap]
    refine List.mem_filterMap.mpr ⟨⟨b, l⟩, hmem, ?_⟩
    dsimp only
    rw [if_pos ⟨hlen, (gapsWithinThree_iff _).mpr hchain⟩]

/-- C7 witness: the group of `ab1, ab2` (gap 1) is reported as a Sequential
Numbers pattern. -/
theorem check_sequential_number_patterns_spec_witness :
    (⟨"Sequential Numbers", "ab".toList,
        (sortByNum [("ab1".toList, 1), ("ab2".toList, 2)]).map Prod.fst⟩ :
      UsernamePattern)
      ∈ check_sequential_number_patterns ["ab1".toList, "ab2".toList] :=
  (check_sequential_number_patterns_spec ["ab1".toList, "ab2".toList]).2.1
    "ab".toList [("ab1".toList, 1), ("ab2".toList, 2)] (by decide) (by decide)
    ((gapsWithinThree_iff _).mp (by decide))
